import Mathlib

/-!
# Verification of the GoToSocial message-processor core and CLI account actions

Shallow embedding of:
* `internal/message` processor (`NewProcessor`, `Start`, `Stop`, the two
  inbound channels and the dispatch loop) — file `src/unnamed/part_001`;
* the administrative CLI account actions (`Confirm`, `Promote`, `Demote`,
  `Disable`, `Password`) — file `src/unnamed/part_000`;
* the `StatusUnfavePOSTHandler` HTTP handler — file `src/unnamed/part_002`.

Go channels are modelled as bounded FIFO buffers; the dispatch goroutine's
`select` loop is modelled as a labelled transition system whose
nondeterminism mirrors Go's nondeterministic choice among ready `select`
cases.  A receive from a closed channel (`<-p.stop` after `close(p.stop)`)
is always ready, exactly as in Go.  Lifecycle calls (`Start`, `Stop`) are
functions on the processor state returning a `GoResult`, where `close` of
an already-closed channel is a run-time panic, as in Go.
-/

/-- Result of running a piece of Go code: a normal value, or a run-time
panic (e.g. `close` of a closed channel). -/
inductive GoResult (α : Type) where
  | ok (a : α)
  | panic (msg : String)
deriving Repr, DecidableEq

/-- A Go buffered channel: a FIFO buffer bounded by `cap`.
`make(chan T, n)` yields `{ cap := n, buf := [] }`. -/
structure Chan (α : Type) where
  cap : Nat
  buf : List α
deriving Repr, DecidableEq

/-- A send on a buffered channel: appends to the buffer if there is room;
`none` means the sender blocks (no value is ever dropped). -/
def chanSend {α : Type} (c : Chan α) (a : α) : Option (Chan α) :=
  if c.buf.length < c.cap then some { c with buf := c.buf ++ [a] } else none

/-- A receive on a buffered channel: takes the oldest element;
`none` means no element is ready. -/
def chanRecv {α : Type} (c : Chan α) : Option (α × Chan α) :=
  match c.buf with
  | [] => none
  | x :: xs => some (x, { c with buf := xs })

/-- Which side fed the message into the processor: the client API
(`gtsmodel.FromClientAPI`) or the federator (`gtsmodel.FromFederator`). -/
inductive Origin where
  | clientAPI
  | federator
deriving Repr, DecidableEq

/-- An activity message flowing through the processor (the payload of
`gtsmodel.FromClientAPI` / `gtsmodel.FromFederator`): an acting account,
the entity acted on, and the activity verb.  The dispatch loop treats it
as opaque data. -/
structure Activity where
  actorID : String
  entityID : String
  verb : String
deriving Repr, DecidableEq

/-- An entry in the processor's log: the `Infof` line emitted when a
message is received off a channel, or the `Error` line emitted when a
handler returns an error. -/
inductive LogEntry where
  | info (o : Origin) (a : Activity)
  | error (o : Origin) (a : Activity) (msg : String)
deriving Repr, DecidableEq

/-- The side-effect handler pair (`processFromClientAPI` /
`processFromFederator`): given the origin and the message, returns
`some msg` when the handler fails with a Go error and `none` on success.
The dispatch loop is parametric in it. -/
def Handler : Type := Origin → Activity → Option String

/-- State of a `processor` value together with its dispatch goroutines:
the two inbound channels built by `NewProcessor`, whether `close(p.stop)`
has happened, the number of live dispatch-loop goroutines spawned by
`Start`, the handler invocations currently in flight, the record of
dispatched messages in dispatch order, and the log. -/
structure PState where
  fromClientAPI : Chan Activity
  fromFederator : Chan Activity
  stopClosed : Bool
  loops : Nat
  inFlight : List (Origin × Activity)
  dispatched : List (Origin × Activity)
  log : List LogEntry
deriving Repr, DecidableEq

/-- `NewProcessor`: both inbound channels are `make(chan _, 100)`, the
stop channel is open, and no dispatch goroutine is running yet. -/
def newProcessor : PState :=
  { fromClientAPI := { cap := 100, buf := [] }
    fromFederator := { cap := 100, buf := [] }
    stopClosed := false
    loops := 0
    inFlight := []
    dispatched := []
    log := [] }

/-- `(*processor).Start`: spawns a dispatch-loop goroutine unconditionally
(no state check) and returns a `nil` error. -/
def startP (s : PState) : GoResult (PState × Option String) :=
  .ok ({ s with loops := s.loops + 1 }, none)

/-- `(*processor).Stop`: `close(p.stop)` and return a `nil` error.
Closing an already-closed channel panics, as in Go. -/
def stopP (s : PState) : GoResult (PState × Option String) :=
  if s.stopClosed then .panic "close of closed channel"
  else .ok ({ s with stopClosed := true }, none)

/-- The loop body run on a received message (mirrors
`if err := p.processFromClientAPI(msg); err != nil { p.log.Error(err) }`):
the handler's failure comes back as an error value, is logged, and the
body returns normally — it never panics. -/
def handleMsg (h : Handler) (o : Origin) (a : Activity) (s : PState) :
    GoResult PState :=
  match h o a with
  | some e => .ok { s with log := s.log ++ [.error o a e] }
  | none => .ok s

/-- Labels of the transition system: a producer enqueues on one of the two
channels, a dispatch goroutine receives a message and begins its handler,
finishes a handler, or exits the loop via the closed stop channel. -/
inductive Label where
  | enqClient (a : Activity)
  | enqFed (a : Activity)
  | beginH (o : Origin) (a : Activity)
  | endH (o : Origin) (a : Activity)
  | stopLoop
deriving Repr, DecidableEq

/-- One step of the system.  `beginH` requires a free dispatch goroutine
(`inFlight.length < loops`) and a ready message on the corresponding
channel; it logs the `Infof` line and records the dispatch.  `endH`
finishes an in-flight handler, logging its error if it failed (via
`handleMsg`).  `stopLoop` is the `case <-p.stop` branch of the `select`:
it is ready as soon as the stop channel is closed — regardless of whether
messages remain queued — and makes the goroutine `break DistLoop`. -/
inductive Step (h : Handler) : PState → Label → PState → Prop where
  | enqClient {s : PState} {a : Activity} {c : Chan Activity}
      (hsend : chanSend s.fromClientAPI a = some c) :
      Step h s (.enqClient a) { s with fromClientAPI := c }
  | enqFed {s : PState} {a : Activity} {c : Chan Activity}
      (hsend : chanSend s.fromFederator a = some c) :
      Step h s (.enqFed a) { s with fromFederator := c }
  | beginClient {s : PState} {a : Activity} {c : Chan Activity}
      (hfree : s.inFlight.length < s.loops)
      (hrecv : chanRecv s.fromClientAPI = some (a, c)) :
      Step h s (.beginH .clientAPI a)
        { s with fromClientAPI := c
                 inFlight := s.inFlight ++ [(.clientAPI, a)]
                 dispatched := s.dispatched ++ [(.clientAPI, a)]
                 log := s.log ++ [.info .clientAPI a] }
  | beginFed {s : PState} {a : Activity} {c : Chan Activity}
      (hfree : s.inFlight.length < s.loops)
      (hrecv : chanRecv s.fromFederator = some (a, c)) :
      Step h s (.beginH .federator a)
        { s with fromFederator := c
                 inFlight := s.inFlight ++ [(.federator, a)]
                 dispatched := s.dispatched ++ [(.federator, a)]
                 log := s.log ++ [.info .federator a] }
  | endH {s s' : PState} {o : Origin} {a : Activity}
      (hin : (o, a) ∈ s.inFlight)
      (hrun : handleMsg h o a { s with inFlight := s.inFlight.erase (o, a) }
        = .ok s') :
      Step h s (.endH o a) s'
  | stopLoop {s : PState}
      (hclosed : s.stopClosed = true)
      (hfree : s.inFlight.length < s.loops) :
      Step h s .stopLoop { s with loops := s.loops - 1 }

/-- A finite run of the system, recording its trace of labels. -/
inductive Steps (h : Handler) : PState → List Label → PState → Prop where
  | refl (s : PState) : Steps h s [] s
  | cons {s s' s'' : PState} {l : Label} {tr : List Label}
      (hstep : Step h s l s') (hrest : Steps h s' tr s'') :
      Steps h s (l :: tr) s''

/-! ## CLI account actions (`src/unnamed/part_000`) -/

/-- A `gtsmodel.Account` as used by the CLI actions: the id and username
are the only fields they read. -/
structure Account where
  id : String
  username : String
deriving Repr, DecidableEq

/-- The fields of a `gtsmodel.User` read or written by the CLI actions. -/
structure User where
  id : String
  accountID : String
  email : String
  unconfirmedEmail : String
  approved : Bool
  confirmedAt : Nat
  admin : Bool
  disabled : Bool
  encryptedPassword : String
deriving Repr, DecidableEq

/-- The persistence state the CLI actions touch: the account records and
the user records. -/
structure DB where
  accounts : List Account
  users : List User
deriving Repr, DecidableEq

/-- Modelled from the spec: the persistence capability (§6) behind
`dbConn.GetLocalAccountByUsername` (its implementation in
`internal/db/pg` is not under `src/`): look up the account record with
the given username, `none` on not-found. -/
def getLocalAccountByUsername (db : DB) (username : String) :
    Option Account :=
  db.accounts.find? (fun a => a.username = username)

/-- Modelled from the spec: the persistence capability (§6) behind
`dbConn.GetWhere([]db.Where{{Key: "account_id", Value: a.ID}}, u)`:
look up the first user record with the given account id. -/
def getUserWhereAccountID (db : DB) (accountID : String) : Option User :=
  db.users.find? (fun u => u.accountID = accountID)

/-- Modelled from the spec: the persistence capability (§6) behind
`dbConn.UpdateByID(u.ID, u)`: an individually atomic single-record write
replacing the user record(s) bearing that id, leaving all others as they
were. -/
def updateByID (db : DB) (id : String) (u : User) : DB :=
  { db with users := db.users.map (fun v => if v.id = id then u else v) }

/-- The record of one `UpdateByID` call: the id written and the new
record value. -/
structure Write where
  id : String
  user : User
deriving Repr, DecidableEq

/-- Error outcomes of a CLI action (missing flag, failed validation, or a
not-found from the persistence layer). -/
inductive CLIErr where
  | noUsername
  | invalidUsername
  | noPassword
  | invalidPassword
  | accountNotFound
  | userNotFound
deriving Repr, DecidableEq

/-- Outcome of a CLI action: the resulting persistence state, the list of
`UpdateByID` calls it issued, and its error, if any. -/
structure ActionOut where
  db : DB
  writes : List Write
  err : Option CLIErr
deriving Repr, DecidableEq

/-- The CLI flags the account actions read
(`c.AccountCLIFlags[config.UsernameFlag]` etc.); `none` means the flag is
not set. -/
structure Flags where
  username : Option String
  password : Option String
deriving Repr, DecidableEq

/-- The environment of a CLI action: `util.ValidateUsername` and
`util.ValidateNewPassword` (modelled from the spec as abstract
validators, their code is not under `src/`), `time.Now()`, and
`bcrypt.GenerateFromPassword` (an abstract hash; with `bcrypt.DefaultCost`
it does not fail). -/
structure CLIEnv where
  validUsername : String → Bool
  validNewPassword : String → Bool
  now : Nat
  hash : String → String

/-- The shared prologue of every account action after `Create`: read the
username flag, validate it, fetch the account by username, fetch the user
by account id.  Returns the user record, or the error of the first
failing stage. -/
def findUser (env : CLIEnv) (flags : Flags) (db : DB) :
    Except CLIErr User :=
  match flags.username with
  | none => .error .noUsername
  | some username =>
    if !env.validUsername username then .error .invalidUsername
    else
      match getLocalAccountByUsername db username with
      | none => .error .accountNotFound
      | some a =>
        match getUserWhereAccountID db a.id with
        | none => .error .userNotFound
        | some u => .ok u

/-- The shared epilogue: mutate the fetched record and write it back with
a single `UpdateByID` call. -/
def mutateUser (env : CLIEnv) (flags : Flags) (db : DB)
    (f : User → User) : ActionOut :=
  match findUser env flags db with
  | .error e => { db := db, writes := [], err := some e }
  | .ok u =>
    let u' := f u
    { db := updateByID db u'.id u'
      writes := [{ id := u'.id, user := u' }]
      err := none }

/-- `account.Confirm`: sets the user to Approved, copies UnconfirmedEmail
into Email and stamps ConfirmedAt with the current time, then updates the
record. -/
def Confirm (env : CLIEnv) (flags : Flags) (db : DB) : ActionOut :=
  mutateUser env flags db (fun u =>
    { u with approved := true, email := u.unconfirmedEmail
             confirmedAt := env.now })

/-- `account.Promote`: sets Admin to true on the user record. -/
def Promote (env : CLIEnv) (flags : Flags) (db : DB) : ActionOut :=
  mutateUser env flags db (fun u => { u with admin := true })

/-- `account.Demote`: sets Admin to false on the user record. -/
def Demote (env : CLIEnv) (flags : Flags) (db : DB) : ActionOut :=
  mutateUser env flags db (fun u => { u with admin := false })

/-- `account.Disable`: sets Disabled to true on the user record. -/
def Disable (env : CLIEnv) (flags : Flags) (db : DB) : ActionOut :=
  mutateUser env flags db (fun u => { u with disabled := true })

/-- `account.Password`: reads and validates the password flag as well,
then stores the bcrypt hash of the new password on the user record. -/
def Password (env : CLIEnv) (flags : Flags) (db : DB) : ActionOut :=
  match flags.password with
  | none => { db := db, writes := [], err := some .noPassword }
  | some pw =>
    if !env.validNewPassword pw then
      { db := db, writes := [], err := some .invalidPassword }
    else
      mutateUser env flags db (fun u =>
        { u with encryptedPassword := env.hash pw })

/-! ## The `StatusUnfavePOSTHandler` (`src/unnamed/part_002`) -/

/-- What the handler observably did: the HTTP status code written and
whether the state-changing `processor.StatusUnfave` call was made. -/
structure HandlerOut where
  status : Nat
  calledUnfave : Bool
deriving Repr, DecidableEq

/-- `StatusUnfavePOSTHandler`: authentication (`oauth.Authed`), then
content negotiation (`apiutil.NegotiateAccept`), then the `id` path
parameter, and only then the processor call.  Each guard failure writes
its error response and returns.  `authOK` is whether `oauth.Authed`
succeeded, `negotiateOK` whether an acceptable content type was
negotiated, `idParam` the value of `c.Param(IDKey)`, and `unfave` the
result of `processor.StatusUnfave` (an HTTP code on error, a status
payload on success). -/
def statusUnfavePOSTHandler (authOK : Bool) (negotiateOK : Bool)
    (idParam : String) (unfave : String → Except Nat Activity) :
    HandlerOut :=
  if !authOK then { status := 401, calledUnfave := false }
  else if !negotiateOK then { status := 406, calledUnfave := false }
  else if idParam = "" then { status := 400, calledUnfave := false }
  else
    match unfave idParam with
    | .error code => { status := code, calledUnfave := true }
    | .ok _ => { status := 200, calledUnfave := true }

/-! ## Derived definitions and concrete instances used in the proofs -/

/-- Everything observable about the processor state except the log:
channels, stop flag, goroutine count, in-flight handlers, dispatch
record. -/
def pobs (s : PState) :
    Chan Activity × Chan Activity × Bool × Nat ×
      List (Origin × Activity) × List (Origin × Activity) :=
  (s.fromClientAPI, s.fromFederator, s.stopClosed, s.loops,
    s.inFlight, s.dispatched)

/-- The inbound channel of a given origin. -/
def queueOf (o : Origin) (s : PState) : Chan Activity :=
  match o with
  | .clientAPI => s.fromClientAPI
  | .federator => s.fromFederator

/-- The messages of a given origin in a dispatch record, in order. -/
def msgsOf (o : Origin) (d : List (Origin × Activity)) : List Activity :=
  (d.filter (fun p => p.1 = o)).map (fun p => p.2)

/-- The enqueue label of a trace element, if it is one. -/
def enqLabel : Label → Option (Origin × Activity)
  | .enqClient a => some (.clientAPI, a)
  | .enqFed a => some (.federator, a)
  | _ => none

/-- The activities a trace enqueues on the channel of a given origin,
in order. -/
def enqsOf (o : Origin) (tr : List Label) : List Activity :=
  msgsOf o (tr.filterMap enqLabel)

/-- Whether a label dispatches an activity taken from the given origin's
channel. -/
def takesFrom (o : Origin) : Label → Bool
  | .beginH o' _ => o' = o
  | _ => false

/-- Whether a label touches the federator channel at all (enqueues on it
or dispatches from it). -/
def touchesFed : Label → Bool
  | .beginH .federator _ => true
  | .enqFed _ => true
  | _ => false

/-- A concrete client-API activity. -/
def aEx : Activity :=
  { actorID := "actor1", entityID := "status1", verb := "Create" }

/-- A concrete federator activity by the same actor. -/
def bEx : Activity :=
  { actorID := "actor1", entityID := "status2", verb := "Like" }

/-- A handler pair that always succeeds. -/
def hOK : Handler := fun _ _ => none

/-- A handler pair that always fails. -/
def hFail : Handler := fun _ _ => some "handler error"

/-- The processor right after `NewProcessor` followed by one `Start`:
one dispatch goroutine, empty channels. -/
def runningP : PState := { newProcessor with loops := 1 }

/-- The running processor with one federator message queued. -/
def sFed : PState :=
  { runningP with fromFederator := { cap := 100, buf := [bEx] } }

/-! ## Helper lemmas about the transition system -/

theorem handleMsg_ok_inv {h : Handler} {o : Origin} {a : Activity}
    {t s' : PState} (hrun : handleMsg h o a t = .ok s') :
    s'.fromClientAPI = t.fromClientAPI ∧ s'.fromFederator = t.fromFederator ∧
    s'.stopClosed = t.stopClosed ∧ s'.loops = t.loops ∧
    s'.inFlight = t.inFlight ∧ s'.dispatched = t.dispatched ∧
    s'.log = t.log ++ (match h o a with
      | some e => [LogEntry.error o a e]
      | none => []) := by
  rcases hh : h o a with _ | e <;> simp [handleMsg, hh] at hrun <;>
    subst hrun <;> simp [hh]

theorem step_inflight {h : Handler} {s s' : PState} {l : Label}
    (hstep : Step h s l s') (hinv : s.inFlight.length ≤ s.loops) :
    s'.inFlight.length ≤ s'.loops ∧ s'.loops ≤ s.loops := by
  cases hstep with
  | enqClient hsend => exact ⟨hinv, le_refl _⟩
  | enqFed hsend => exact ⟨hinv, le_refl _⟩
  | beginClient hfree hrecv => exact ⟨by simpa using hfree, le_refl _⟩
  | beginFed hfree hrecv => exact ⟨by simpa using hfree, le_refl _⟩
  | endH hin hrun =>
    obtain ⟨_, _, _, h4, h5, _, _⟩ := handleMsg_ok_inv hrun
    refine ⟨?_, by simp [h4]⟩
    rw [h4, h5]
    exact le_trans (List.Sublist.length_le (List.erase_sublist _ _)) hinv
  | stopLoop hclosed hfree => refine ⟨?_, ?_⟩ <;> simp only [] <;> omega

theorem steps_inflight {h : Handler} {s s' : PState} {tr : List Label}
    (hsteps : Steps h s tr s') (hinv : s.inFlight.length ≤ s.loops) :
    s'.inFlight.length ≤ s'.loops ∧ s'.loops ≤ s.loops := by
  induction hsteps with
  | refl s => exact ⟨hinv, le_refl _⟩
  | cons hstep hrest ih =>
    obtain ⟨h1, h2⟩ := step_inflight hstep hinv
    obtain ⟨h3, h4⟩ := ih h1
    exact ⟨h3, le_trans h4 h2⟩

theorem steps_append {h : Handler} {s s' s'' : PState}
    {tr tr' : List Label} (h1 : Steps h s tr s')
    (h2 : Steps h s' tr' s'') : Steps h s (tr ++ tr') s'' := by
  induction h1 with
  | refl s => exact h2
  | cons hstep hrest ih => exact Steps.cons hstep (ih h2)

theorem chanSend_inv {α : Type} {c c' : Chan α} {a : α}
    (h : chanSend c a = some c') :
    c'.cap = c.cap ∧ c'.buf = c.buf ++ [a] ∧ c.buf.length < c.cap := by
  unfold chanSend at h
  split at h
  · injection h with h
    subst h
    exact ⟨rfl, rfl, by assumption⟩
  · cases h

theorem chanRecv_inv {α : Type} {c c' : Chan α} {a : α}
    (h : chanRecv c = some (a, c')) :
    c.buf = a :: c'.buf ∧ c'.cap = c.cap := by
  unfold chanRecv at h
  rcases hb : c.buf with _ | ⟨x, xs⟩ <;> rw [hb] at h
  · cases h
  · injection h with h
    obtain ⟨h1, h2⟩ := Prod.mk.injEq .. ▸ h
    subst h1
    subst h2
    exact ⟨rfl, rfl⟩

theorem msgsOf_append (o : Origin) (d1 d2 : List (Origin × Activity)) :
    msgsOf o (d1 ++ d2) = msgsOf o d1 ++ msgsOf o d2 := by
  simp [msgsOf]

theorem enqsOf_cons (o : Origin) (l : Label) (tr : List Label) :
    enqsOf o (l :: tr) = enqsOf o [l] ++ enqsOf o tr := by
  cases l <;> cases o <;>
    simp [enqsOf, msgsOf, enqLabel, List.filterMap_cons]

theorem step_endH_inv {h : Handler} {s s' : PState} {o : Origin}
    {a : Activity} (hstep : Step h s (.endH o a) s') :
    s'.fromClientAPI = s.fromClientAPI ∧ s'.fromFederator = s.fromFederator ∧
    s'.stopClosed = s.stopClosed ∧ s'.loops = s.loops ∧
    s'.inFlight = s.inFlight.erase (o, a) ∧ s'.dispatched = s.dispatched ∧
    s'.log = s.log ++ (match h o a with
      | some e => [LogEntry.error o a e]
      | none => []) := by
  cases hstep with
  | endH hin hrun =>
    obtain ⟨h1, h2, h3, h4, h5, h6, h7⟩ := handleMsg_ok_inv hrun
    exact ⟨h1, h2, h3, h4, h5, h6, h7⟩

theorem step_queue_order {h : Handler} {o : Origin} {s s' : PState}
    {l : Label} (hstep : Step h s l s') :
    msgsOf o s'.dispatched ++ (queueOf o s').buf =
      msgsOf o s.dispatched ++ ((queueOf o s).buf ++ enqsOf o [l]) := by
  cases hstep with
  | enqClient hsend =>
    obtain ⟨_, hbuf, _⟩ := chanSend_inv hsend
    cases o <;>
      simp [queueOf, enqsOf, msgsOf, enqLabel, hbuf]
  | enqFed hsend =>
    obtain ⟨_, hbuf, _⟩ := chanSend_inv hsend
    cases o <;>
      simp [queueOf, enqsOf, msgsOf, enqLabel, hbuf]
  | beginClient hfree hrecv =>
    obtain ⟨hbuf, _⟩ := chanRecv_inv hrecv
    cases o <;>
      simp [queueOf, enqsOf, msgsOf, enqLabel, hbuf, msgsOf_append]
  | beginFed hfree hrecv =>
    obtain ⟨hbuf, _⟩ := chanRecv_inv hrecv
    cases o <;>
      simp [queueOf, enqsOf, msgsOf, enqLabel, hbuf, msgsOf_append]
  | endH hin hrun =>
    obtain ⟨h1, h2, _, _, _, h6, _⟩ := step_endH_inv (Step.endH hin hrun)
    cases o <;>
      simp [queueOf, enqsOf, msgsOf, enqLabel, h1, h2, h6]
  | stopLoop hclosed hfree =>
    cases o <;> simp [queueOf, enqsOf, msgsOf, enqLabel]

theorem steps_queue_order {h : Handler} {o : Origin} {s s' : PState}
    {tr : List Label} (hsteps : Steps h s tr s') :
    msgsOf o s'.dispatched ++ (queueOf o s').buf =
      msgsOf o s.dispatched ++ ((queueOf o s).buf ++ enqsOf o tr) := by
  induction hsteps with
  | refl s => simp [enqsOf, msgsOf]
  | cons hstep hrest ih =>
    have h1 := step_queue_order (o := o) hstep
    rw [enqsOf_cons, ih, ← List.append_assoc, h1]
    simp [List.append_assoc]

theorem chanRecv_of_buf {α : Type} {c : Chan α} {x : α} {xs : List α}
    (hb : c.buf = x :: xs) :
    chanRecv c = some (x, { cap := c.cap, buf := xs }) := by
  unfold chanRecv
  rw [hb]

/-! ## Claims -/

/-- C2 (counterexample): after `NewProcessor`, `Start`, and one `Stop`, a
second `Stop` call panics — `close(p.stop)` on an already-closed channel —
instead of being a no-op, refuting the claim that repeated `Stop` neither
errors nor panics. -/
theorem c2_second_stop_panics :
    ∃ sR s1 : PState,
      startP newProcessor = .ok (sR, none) ∧
      stopP sR = .ok (s1, none) ∧
      stopP s1 = .panic "close of closed channel" :=
  ⟨{ newProcessor with loops := 1 },
    { newProcessor with loops := 1, stopClosed := true }, rfl, rfl, rfl⟩

/-- C2 (amended): `Start` performs no state check: it always spawns one
more dispatch-loop goroutine and returns a `nil` error, so a repeated
`Start` does create a second concurrent dispatch loop; `Stop` on a
not-yet-stopped processor closes the stop channel and returns `nil`, and
a `Stop` on an already-stopped processor panics (close of a closed
channel).  Neither call reports the current state. -/
theorem c2_lifecycle_not_idempotent (s : PState) :
    startP s = .ok ({ s with loops := s.loops + 1 }, none) ∧
    stopP { s with stopClosed := false }
      = .ok ({ s with stopClosed := true }, none) ∧
    stopP { s with stopClosed := true }
      = .panic "close of closed channel" :=
  ⟨rfl, rfl, rfl⟩

/-- C4: both inbound queues are created with capacity exactly 100; a send
on a full channel blocks (returns no updated channel, dropping nothing);
a successful send appends to the tail; a receive takes the head — bounded
FIFO with backpressure. -/
theorem c4_bounded_fifo_queues :
    (newProcessor.fromClientAPI.cap = 100 ∧
      newProcessor.fromFederator.cap = 100) ∧
    (∀ (c : Chan Activity) (a : Activity),
      c.cap ≤ c.buf.length → chanSend c a = none) ∧
    (∀ (c c' : Chan Activity) (a : Activity),
      chanSend c a = some c' → c'.buf = c.buf ++ [a] ∧ c'.cap = c.cap) ∧
    (∀ (c : Chan Activity) (x : Activity) (xs : List Activity),
      c.buf = x :: xs →
        chanRecv c = some (x, { cap := c.cap, buf := xs })) := by
  refine ⟨⟨rfl, rfl⟩, ?_, ?_, ?_⟩
  · intro c a hfull
    simp [chanSend]
    omega
  · intro c c' a hsend
    obtain ⟨h1, h2, _⟩ := chanSend_inv hsend
    exact ⟨h2, h1⟩
  · intro c x xs hb
    exact chanRecv_of_buf hb

/-- Witness for C4 at concrete channels: a full channel refuses the send,
a non-full one appends at the tail, and a receive returns the head. -/
theorem c4_bounded_fifo_queues_witness :
    chanSend { cap := 1, buf := [aEx] } bEx = none ∧
    (([aEx, bEx] : List Activity) = [aEx] ++ [bEx] ∧ (2 : Nat) = 2) ∧
    chanRecv { cap := 100, buf := [aEx, bEx] }
      = some (aEx, { cap := 100, buf := [bEx] }) :=
  ⟨c4_bounded_fifo_queues.2.1 { cap := 1, buf := [aEx] } bEx (by decide),
    c4_bounded_fifo_queues.2.2.1 { cap := 2, buf := [aEx] }
      { cap := 2, buf := [aEx, bEx] } bEx (by decide),
    c4_bounded_fifo_queues.2.2.2 { cap := 100, buf := [aEx, bEx] } aEx
      [bEx] rfl⟩

/-- C9: `StatusUnfavePOSTHandler` writes 401 when authentication fails,
406 when content negotiation fails, 400 when the status-id path parameter
is empty — in that order, without calling the processor — and calls
`processor.StatusUnfave` exactly when all three guards pass. -/
theorem c9_unfave_guards :
    (∀ (neg : Bool) (idp : String) (unfave : String → Except Nat Activity),
      statusUnfavePOSTHandler false neg idp unfave
        = { status := 401, calledUnfave := false }) ∧
    (∀ (idp : String) (unfave : String → Except Nat Activity),
      statusUnfavePOSTHandler true false idp unfave
        = { status := 406, calledUnfave := false }) ∧
    (∀ unfave : String → Except Nat Activity,
      statusUnfavePOSTHandler true true "" unfave
        = { status := 400, calledUnfave := false }) ∧
    (∀ (auth neg : Bool) (idp : String)
        (unfave : String → Except Nat Activity),
      (statusUnfavePOSTHandler auth neg idp unfave).calledUnfave = true ↔
        auth = true ∧ neg = true ∧ idp ≠ "") := by
  refine ⟨fun neg idp unfave => rfl, fun idp unfave => rfl,
    fun unfave => rfl, ?_⟩
  intro auth neg idp unfave
  cases auth <;> cases neg <;> simp [statusUnfavePOSTHandler]
  by_cases hid : idp = ""
  · simp [hid]
  · rcases h : unfave idp with e | st <;> simp [h, hid]

/-- Witness for C9: with authentication failed the handler answers 401
without calling the processor; with all guards passing it does call
`StatusUnfave`. -/
theorem c9_unfave_guards_witness :
    statusUnfavePOSTHandler false true "abc" (fun _ => .ok aEx)
      = { status := 401, calledUnfave := false } ∧
    (statusUnfavePOSTHandler true true "abc"
      (fun _ => .ok aEx)).calledUnfave = true :=
  ⟨c9_unfave_guards.1 true "abc" (fun _ => .ok aEx),
    (c9_unfave_guards.2.2.2 true true "abc" (fun _ => .ok aEx)).mpr
      ⟨rfl, rfl, by decide⟩⟩

/-- C1 (code bug): with one Activity already queued on the federator
channel, `Stop` closes the stop channel, upon which the dispatch
goroutine's `select` may take the ready `<-p.stop` case and `break
DistLoop` at once: the engine reaches the stopped state (`loops = 0`)
with the queued Activity still in the buffer, never dispatched.  This
contradicts the `Stop` doc comment ("finishing handling any remaining
messages before closing down"); the source's own TODO admits the
defect. -/
theorem c1_stop_abandons_queued_messages :
    ∃ sR s1 sE sF : PState,
      startP newProcessor = .ok (sR, none) ∧
      Steps hOK sR [.enqFed bEx] s1 ∧
      stopP s1 = .ok (sE, none) ∧
      Step hOK sE .stopLoop sF ∧
      sF.loops = 0 ∧ sF.fromFederator.buf = [bEx] ∧ sF.dispatched = [] := by
  refine ⟨{ newProcessor with loops := 1 },
    { newProcessor with loops := 1, fromFederator := { cap := 100, buf := [bEx] } },
    { newProcessor with loops := 1, stopClosed := true, fromFederator := { cap := 100, buf := [bEx] } },
    { newProcessor with loops := 0, stopClosed := true, fromFederator := { cap := 100, buf := [bEx] } },
    rfl, ?_, rfl, ?_, rfl, rfl, rfl⟩
  · exact Steps.cons
      (Step.enqFed (c := { cap := 100, buf := [bEx] }) (by decide))
      (Steps.refl _)
  · exact Step.stopLoop rfl (by decide)

/-- C8: with a single `Start` (one dispatch goroutine) and nothing in
flight initially, every reachable state has at most one handler
invocation in flight, and a dispatch of a next message can only happen
when no handler is running — the dispatch loop is a single sequential
consumer. -/
theorem c8_single_sequential_consumer (h : Handler) (s₀ s : PState)
    (tr : List Label) (hrun : Steps h s₀ tr s) (hone : s₀.loops ≤ 1)
    (hempty : s₀.inFlight = []) :
    s.inFlight.length ≤ 1 ∧
    ∀ (o : Origin) (a : Activity) (s' : PState),
      Step h s (.beginH o a) s' → s.inFlight = [] := by
  obtain ⟨h1, h2⟩ := steps_inflight hrun (by simp [hempty])
  refine ⟨le_trans h1 (le_trans h2 hone), ?_⟩
  intro o a s' hstep
  have hfree : s.inFlight.length < s.loops := by
    cases hstep with
    | beginClient hfree hrecv => exact hfree
    | beginFed hfree hrecv => exact hfree
  have hzero : s.inFlight.length = 0 := by
    have hle : s.loops ≤ 1 := le_trans h2 hone
    omega
  exact List.length_eq_zero.mp hzero

/-- Witness for C8 at the freshly started processor with the empty run. -/
theorem c8_single_sequential_consumer_witness :
    runningP.inFlight.length ≤ 1 :=
  (c8_single_sequential_consumer hOK runningP runningP [] (Steps.refl _)
    (by decide) rfl).1

/-- C3 (counterexample): two Activities by the same actor, the first
submitted to the client-API queue, the second to the federator queue
afterwards; the dispatcher may nevertheless process the federator one
first, because `select` chooses among ready channels with no cross-queue
order — refuting processing in cross-queue enqueue order. -/
theorem c3_cross_queue_reorder :
    aEx.actorID = bEx.actorID ∧
    ∃ s : PState,
      Steps hOK runningP
        [.enqClient aEx, .enqFed bEx, .beginH .federator bEx,
          .endH .federator bEx, .beginH .clientAPI aEx,
          .endH .clientAPI aEx] s ∧
      s.dispatched = [(.federator, bEx), (.clientAPI, aEx)] := by
  refine ⟨rfl, ?_⟩
  have hchain := Steps.cons
      (Step.enqClient (h := hOK) (s := runningP) (a := aEx)
        (c := { cap := 100, buf := [aEx] }) (by decide))
      (Steps.cons
        (Step.enqFed (a := bEx) (c := { cap := 100, buf := [bEx] })
          (by decide))
        (Steps.cons
          (Step.beginFed (a := bEx) (c := { cap := 100, buf := [] })
            (by decide) (by decide))
          (Steps.cons
            (Step.endH (o := .federator) (a := bEx) (by decide) rfl)
            (Steps.cons
              (Step.beginClient (a := aEx) (c := { cap := 100, buf := [] })
                (by decide) (by decide))
              (Steps.cons
                (Step.endH (o := .clientAPI) (a := aEx) (by decide) rfl)
                (Steps.refl _))))))
  exact ⟨_, hchain, by decide⟩

/-- C3 (amended): per queue, same-actor (indeed all) Activities are
processed in enqueue order — the dispatched messages of an origin
followed by that origin's remaining buffer equal the initial buffer
followed by the submissions, in order — and with a single dispatch
goroutine at most one handler invocation is ever in flight, so handler
invocations never overlap; across the two queues no relative order is
guaranteed. -/
theorem c3_per_queue_order_amended (h : Handler) (o : Origin)
    (s₀ s : PState) (tr : List Label) (hrun : Steps h s₀ tr s)
    (hd : s₀.dispatched = []) (hone : s₀.loops ≤ 1)
    (hempty : s₀.inFlight = []) :
    msgsOf o s.dispatched ++ (queueOf o s).buf =
      (queueOf o s₀).buf ++ enqsOf o tr ∧
    s.inFlight.length ≤ 1 := by
  constructor
  · have hq := steps_queue_order (o := o) hrun
    rw [hd] at hq
    simpa [msgsOf] using hq
  · obtain ⟨h1, h2⟩ := steps_inflight hrun (by simp [hempty])
    exact le_trans h1 (le_trans h2 hone)

/-- Witness for C3's amended theorem on a one-submission run. -/
theorem c3_per_queue_order_witness :
    msgsOf .clientAPI
        ({ runningP with
            fromClientAPI := { cap := 100, buf := [aEx] } } : PState).dispatched
        ++ (queueOf .clientAPI
            { runningP with
              fromClientAPI := { cap := 100, buf := [aEx] } }).buf
      = (queueOf .clientAPI runningP).buf
        ++ enqsOf .clientAPI [.enqClient aEx] ∧
    ({ runningP with
        fromClientAPI := { cap := 100, buf := [aEx] } } : PState).inFlight.length
      ≤ 1 :=
  c3_per_queue_order_amended hOK .clientAPI runningP _ [.enqClient aEx]
    (Steps.cons
      (Step.enqClient (c := { cap := 100, buf := [aEx] }) (by decide))
      (Steps.refl _))
    rfl (by decide) rfl

theorem handleMsg_obs {h h' : Handler} {o : Origin} {a : Activity}
    {t s' : PState} (hrun : handleMsg h o a t = .ok s') :
    ∃ s'', handleMsg h' o a t = .ok s'' ∧ pobs s'' = pobs s' := by
  obtain ⟨h1, h2, h3, h4, h5, h6, _⟩ := handleMsg_ok_inv hrun
  rcases hh : h' o a with _ | e
  · exact ⟨t, by simp [handleMsg, hh],
      by simp [pobs, h1, h2, h3, h4, h5, h6]⟩
  · exact ⟨{ t with log := t.log ++ [.error o a e] },
      by simp [handleMsg, hh],
      by simp [pobs, h1, h2, h3, h4, h5, h6]⟩

/-- C5: a handler failure is logged with the message's origin and content
and changes nothing else: the loop keeps its goroutine, the queues and
dispatch record are untouched, and the message leaves the in-flight set
(it is never re-queued).  The transition structure is independent of the
handler outcome — any two handlers allow the same steps, with at most the
log differing — so one Activity's failure cannot affect another's
processing; the loop body itself never panics; and no Activity is ever
dispatched more often than it was submitted (no retry by the
dispatcher). -/
theorem c5_handler_error_isolated :
    (∀ (h : Handler) (o : Origin) (a : Activity) (e : String)
        (s s' : PState), h o a = some e → Step h s (.endH o a) s' →
      s'.log = s.log ++ [.error o a e] ∧ s'.dispatched = s.dispatched ∧
      s'.loops = s.loops ∧ s'.stopClosed = s.stopClosed ∧
      s'.fromClientAPI = s.fromClientAPI ∧
      s'.fromFederator = s.fromFederator ∧
      s'.inFlight = s.inFlight.erase (o, a)) ∧
    (∀ (h h' : Handler) (s : PState) (l : Label) (s' : PState),
      Step h s l s' → ∃ s'', Step h' s l s'' ∧ pobs s'' = pobs s') ∧
    (∀ (h : Handler) (o : Origin) (a : Activity) (s : PState),
      ∃ s', handleMsg h o a s = .ok s') ∧
    (∀ (h : Handler) (o : Origin) (s₀ s : PState) (tr : List Label),
      Steps h s₀ tr s → s₀.dispatched = [] → ∀ a : Activity,
        (msgsOf o s.dispatched).count a ≤
          ((queueOf o s₀).buf).count a + (enqsOf o tr).count a) := by
  refine ⟨?_, ?_, ?_, ?_⟩
  · intro h o a e s s' he hstep
    obtain ⟨h1, h2, h3, h4, h5, h6, h7⟩ := step_endH_inv hstep
    rw [he] at h7
    exact ⟨h7, h6, h4, h3, h1, h2, h5⟩
  · intro h h' s l s' hstep
    cases hstep with
    | enqClient hsend => exact ⟨_, Step.enqClient hsend, rfl⟩
    | enqFed hsend => exact ⟨_, Step.enqFed hsend, rfl⟩
    | beginClient hfree hrecv =>
      exact ⟨_, Step.beginClient hfree hrecv, rfl⟩
    | beginFed hfree hrecv => exact ⟨_, Step.beginFed hfree hrecv, rfl⟩
    | endH hin hrun =>
      obtain ⟨s'', hrun', hobs⟩ := @handleMsg_obs _ h' _ _ _ _ hrun
      exact ⟨s'', Step.endH hin hrun', hobs⟩
    | stopLoop hclosed hfree => exact ⟨_, Step.stopLoop hclosed hfree, rfl⟩
  · intro h o a s
    rcases hh : h o a with _ | e
    · exact ⟨s, by simp [handleMsg, hh]⟩
    · exact ⟨{ s with log := s.log ++ [.error o a e] },
        by simp [handleMsg, hh]⟩
  · intro h o s₀ s tr hrun hd a
    have hq := steps_queue_order (o := o) hrun
    rw [hd, show msgsOf o ([] : List (Origin × Activity)) = [] from rfl,
      List.nil_append] at hq
    have hc := congrArg (List.count a) hq
    simp only [List.count_append] at hc
    omega

/-- Witness for C5: a concrete failing handler invocation is logged and
leaves the processor running, and the loop body returns normally on a
fresh state. -/
theorem c5_handler_error_isolated_witness :
    ({ runningP with
        inFlight := ([] : List (Origin × Activity))
        log := [LogEntry.error .clientAPI aEx "handler error"] } : PState).log
      = ({ runningP with
            inFlight := [(Origin.clientAPI, aEx)] } : PState).log
        ++ [LogEntry.error .clientAPI aEx "handler error"] ∧
    ∃ s', handleMsg hFail .clientAPI aEx runningP = .ok s' :=
  ⟨(c5_handler_error_isolated.1 hFail .clientAPI aEx "handler error"
      { runningP with inFlight := [(Origin.clientAPI, aEx)] }
      { runningP with
        inFlight := ([] : List (Origin × Activity))
        log := [LogEntry.error .clientAPI aEx "handler error"] }
      rfl (Step.endH (by decide) (by decide))).1,
    c5_handler_error_isolated.2.2.1 hFail .clientAPI aEx runningP⟩

/-- One producer-plus-dispatcher cycle on the client queue: enqueue one
client message, dispatch it, finish its handler. -/
def cycleC : List Label :=
  [.enqClient aEx, .beginH .clientAPI aEx, .endH .clientAPI aEx]

/-- `n` such cycles in a row. -/
def burst : Nat → List Label
  | 0 => []
  | n + 1 => cycleC ++ burst n

/-- The state after `n` client cycles from `sFed`: the federator message
still queued, `n` client dispatches recorded. -/
def afterCycles (n : Nat) : PState :=
  { sFed with
    dispatched := List.replicate n (Origin.clientAPI, aEx)
    log := List.replicate n (LogEntry.info .clientAPI aEx) }

theorem cycle_steps (k : Nat) :
    Steps hOK (afterCycles k) cycleC (afterCycles (k + 1)) := by
  have key : afterCycles (k + 1) =
      { afterCycles k with
        inFlight :=
          (((afterCycles k).inFlight
            ++ [(Origin.clientAPI, aEx)]).erase (Origin.clientAPI, aEx))
        dispatched := (afterCycles k).dispatched ++ [(.clientAPI, aEx)]
        log := (afterCycles k).log ++ [.info .clientAPI aEx] } := by
    simp [afterCycles, sFed, runningP, newProcessor, List.replicate_succ']
  rw [key]
  refine Steps.cons
    (Step.enqClient (a := aEx) (c := { cap := 100, buf := [aEx] }) rfl)
    (Steps.cons
      (Step.beginClient (a := aEx) (c := { cap := 100, buf := [] })
        Nat.zero_lt_one rfl)
      (Steps.cons
        (Step.endH (o := .clientAPI) (a := aEx) (List.Mem.head _) rfl)
        (Steps.refl _)))

theorem burst_steps_from (j n : Nat) :
    Steps hOK (afterCycles j) (burst n) (afterCycles (j + n)) := by
  induction n generalizing j with
  | zero => exact Steps.refl _
  | succ k ih =>
    have h1 := steps_append (cycle_steps j) (ih (j + 1))
    rw [show j + (k + 1) = j + 1 + k by omega]
    exact h1

theorem burst_steps (n : Nat) :
    Steps hOK sFed (burst n) (afterCycles n) := by
  have h1 := burst_steps_from 0 n
  rw [Nat.zero_add] at h1
  exact h1

theorem burst_count (n : Nat) :
    (burst n).countP (takesFrom .clientAPI) = n := by
  induction n with
  | zero => rfl
  | succ k ih =>
    rw [show burst (k + 1) = cycleC ++ burst k from rfl,
      List.countP_append, ih,
      show List.countP (takesFrom .clientAPI) cycleC = 1 from rfl]
    omega

theorem burst_no_fed (n : Nat) : ∀ l ∈ burst n, touchesFed l = false := by
  induction n with
  | zero => intro l hl; cases hl
  | succ k ih =>
    intro l hl
    rw [show burst (k + 1) = cycleC ++ burst k from rfl,
      List.mem_append] at hl
    rcases hl with hl | hl
    · simp [cycleC] at hl
      rcases hl with rfl | rfl | rfl <;> rfl
    · exact ih l hl

/-- C6 (counterexample): no constant K bounds the number of Activities
the dispatcher takes from the client queue while the federator queue is
non-empty and never serviced — the `select` may keep choosing the client
case as producers keep refilling, so no deterministic fairness bound
exists.  Formally: for every K there is a run starting and ending with a
non-empty federator queue, never touching it, whose client-side
dispatches exceed K. -/
theorem c6_no_fairness_bound :
    ¬ ∃ K : Nat,
      ∀ (h : Handler) (s₀ : PState) (tr : List Label) (s : PState),
        Steps h s₀ tr s → s₀.fromFederator.buf ≠ [] →
        s.fromFederator.buf ≠ [] → (∀ l ∈ tr, touchesFed l = false) →
        tr.countP (takesFrom .clientAPI) ≤ K := by
  rintro ⟨K, hK⟩
  have h1 := hK hOK sFed (burst (K + 1)) (afterCycles (K + 1))
    (burst_steps (K + 1)) (by decide) (List.cons_ne_nil _ _)
    (burst_no_fed (K + 1))
  rw [burst_count] at h1
  omega

/-- C6 (amended): selection between the two queues is nondeterministic —
whenever a dispatch goroutine is free, any non-empty queue may be
serviced next, so neither queue is ever barred from service — but there
is no constant K bounding consecutive service of one queue while the
other is non-empty: for every K there is a run taking K+1 client-queue
Activities while the federator queue stays non-empty and unserviced. -/
theorem c6_fairness_amended :
    (∀ (h : Handler) (s : PState), s.inFlight.length < s.loops →
      (queueOf .federator s).buf ≠ [] →
      ∃ (a : Activity) (s' : PState),
        Step h s (.beginH .federator a) s') ∧
    (∀ (h : Handler) (s : PState), s.inFlight.length < s.loops →
      (queueOf .clientAPI s).buf ≠ [] →
      ∃ (a : Activity) (s' : PState),
        Step h s (.beginH .clientAPI a) s') ∧
    (∀ K : Nat, ∃ (tr : List Label) (s : PState),
      Steps hOK sFed tr s ∧ (∀ l ∈ tr, touchesFed l = false) ∧
      s.fromFederator.buf ≠ [] ∧
      tr.countP (takesFrom .clientAPI) = K + 1) := by
  refine ⟨?_, ?_, ?_⟩
  · intro h s hfree hne
    rcases hb : s.fromFederator.buf with _ | ⟨x, xs⟩
    · exact absurd hb hne
    · exact ⟨x, _, Step.beginFed hfree (chanRecv_of_buf hb)⟩
  · intro h s hfree hne
    rcases hb : s.fromClientAPI.buf with _ | ⟨x, xs⟩
    · exact absurd hb hne
    · exact ⟨x, _, Step.beginClient hfree (chanRecv_of_buf hb)⟩
  · intro K
    exact ⟨burst (K + 1), afterCycles (K + 1), burst_steps _,
      burst_no_fed _, List.cons_ne_nil _ _, by rw [burst_count]⟩

/-- Witness for C6's amended theorem: from `sFed` the federator queue can
be serviced at once, and a 1-cycle client run exists that leaves the
federator queue unserviced. -/
theorem c6_fairness_amended_witness :
    (∃ (a : Activity) (s' : PState),
      Step hOK sFed (.beginH .federator a) s') ∧
    (∃ (tr : List Label) (s : PState),
      Steps hOK sFed tr s ∧ (∀ l ∈ tr, touchesFed l = false) ∧
      s.fromFederator.buf ≠ [] ∧
      tr.countP (takesFrom .clientAPI) = 0 + 1) :=
  ⟨c6_fairness_amended.1 hOK sFed (by decide) (by decide),
    c6_fairness_amended.2.2 0⟩

/-- A CLI action is a direct single-record write: account records are
never touched; on success it issued exactly one `UpdateByID`, on the user
record found for the username flag, and every user record with a
different id is left exactly as it was; on any error the database is
unchanged and no write was issued; a missing username flag or a failed
username validation always errors (hence writes nothing). -/
def SingleRecordAction (act : CLIEnv → Flags → DB → ActionOut) : Prop :=
  ∀ (env : CLIEnv) (flags : Flags) (db : DB),
    (act env flags db).db.accounts = db.accounts ∧
    ((act env flags db).err = none →
      ∃ u : User, findUser env flags db = .ok u ∧
        ∃ w : Write, (act env flags db).writes = [w] ∧ w.id = u.id ∧
          List.Forall₂
            (fun vo vn =>
              (vo.id = w.id → vn = w.user) ∧ (vo.id ≠ w.id → vn = vo))
            db.users (act env flags db).db.users) ∧
    ((act env flags db).err ≠ none →
      (act env flags db).db = db ∧ (act env flags db).writes = []) ∧
    (flags.username = none → (act env flags db).err ≠ none) ∧
    (∀ un : String, flags.username = some un →
      env.validUsername un = false → (act env flags db).err ≠ none)

theorem findUser_err_of_no_username {env : CLIEnv} {flags : Flags}
    {db : DB} (hun : flags.username = none) :
    findUser env flags db = .error .noUsername := by
  simp [findUser, hun]

theorem findUser_err_of_invalid {env : CLIEnv} {flags : Flags} {db : DB}
    {un : String} (hun : flags.username = some un)
    (hval : env.validUsername un = false) :
    findUser env flags db = .error .invalidUsername := by
  simp [findUser, hun, hval]

theorem mutateUser_single (F : CLIEnv → User → User)
    (hf : ∀ env u, (F env u).id = u.id) :
    SingleRecordAction
      (fun env flags db => mutateUser env flags db (F env)) := by
  intro env flags db
  set f : User → User := F env with hfdef
  have hf : ∀ u, (f u).id = u.id := hf env
  rcases hfind : findUser env flags db with e | u
  · refine ⟨by simp [mutateUser, hfind], ?_, ?_, ?_, ?_⟩
    · intro herr
      simp [mutateUser, hfind] at herr
    · intro _
      simp [mutateUser, hfind]
    · intro _
      simp [mutateUser, hfind]
    · intro un _ _
      simp [mutateUser, hfind]
  · refine ⟨by simp [mutateUser, hfind, updateByID], ?_, ?_, ?_, ?_⟩
    · intro _
      refine ⟨u, rfl, { id := (f u).id, user := f u },
        by simp [mutateUser, hfind], hf u, ?_⟩
      have hmap : (mutateUser env flags db f).db.users
          = db.users.map
            (fun v => if v.id = (f u).id then f u else v) := by
        simp [mutateUser, hfind, updateByID]
      rw [hmap, List.forall₂_map_right_iff, List.forall₂_same]
      intro v hv
      by_cases hvid : v.id = (f u).id <;> simp [hvid]
    · intro herr
      simp [mutateUser, hfind] at herr
    · intro hun
      rw [findUser_err_of_no_username hun] at hfind
      cases hfind
    · intro un hun hval
      rw [findUser_err_of_invalid hun hval] at hfind
      cases hfind

/-- C7: each of the CLI account mutations `Confirm`, `Promote`, `Demote`,
`Disable`, `Password` is a direct, synchronous, single-record database
write: on success exactly one `UpdateByID` on the user record found for
the `--username` flag, every other record untouched; with a missing
username flag or failed validation (or any earlier error) no write at
all occurs. -/
theorem c7_single_record_writes :
    SingleRecordAction Confirm ∧ SingleRecordAction Promote ∧
    SingleRecordAction Demote ∧ SingleRecordAction Disable ∧
    SingleRecordAction Password := by
  refine ⟨mutateUser_single
      (fun env u => { u with approved := true, email := u.unconfirmedEmail, confirmedAt := env.now })
      (fun env u => rfl),
    mutateUser_single (fun env u => { u with admin := true })
      (fun env u => rfl),
    mutateUser_single (fun env u => { u with admin := false })
      (fun env u => rfl),
    mutateUser_single (fun env u => { u with disabled := true })
      (fun env u => rfl), ?_⟩
  intro env flags db
  rcases hpw : flags.password with _ | pw
  · refine ⟨by simp [Password, hpw], ?_, ?_, ?_, ?_⟩
    · intro herr
      simp [Password, hpw] at herr
    · intro _
      simp [Password, hpw]
    · intro _
      simp [Password, hpw]
    · intro un _ _
      simp [Password, hpw]
  · rcases hval : env.validNewPassword pw with _ | _
    · refine ⟨by simp [Password, hpw, hval], ?_, ?_, ?_, ?_⟩
      · intro herr
        simp [Password, hpw, hval] at herr
      · intro _
        simp [Password, hpw, hval]
      · intro _
        simp [Password, hpw, hval]
      · intro un _ _
        simp [Password, hpw, hval]
    · have hmu := mutateUser_single
        (fun env2 u => { u with encryptedPassword := env2.hash pw })
        (fun env2 u => rfl) env flags db
      have heq : Password env flags db
          = mutateUser env flags db
            (fun u => { u with encryptedPassword := env.hash pw }) := by
        simp [Password, hpw, hval]
      rw [heq]
      exact hmu

theorem find?_map_update {l : List User} {u u' : User} {p : User → Bool}
    (hid : u'.id = u.id) (hp : p u' = p u)
    (hfind : l.find? p = some u) :
    (l.map (fun v => if v.id = u.id then u' else v)).find? p
      = some u' := by
  induction l with
  | nil => simp at hfind
  | cons x xs ih =>
    by_cases hx : p x
    · rw [List.find?_cons_of_pos _ hx] at hfind
      injection hfind with hfind
      subst hfind
      show List.find? p ((if x.id = x.id then u' else x) :: _) = some u'
      rw [if_pos rfl]
      exact List.find?_cons_of_pos _ (by rw [hp, hx])
    · rw [List.find?_cons_of_neg _ hx] at hfind
      by_cases hxid : x.id = u.id
      · have hpu : p u = true := List.find?_some hfind
        show List.find? p ((if x.id = u.id then u' else x) :: _) = some u'
        rw [if_pos hxid]
        exact List.find?_cons_of_pos _ (by rw [hp, hpu])
      · show List.find? p ((if x.id = u.id then u' else x) :: _) = some u'
        rw [if_neg hxid, List.find?_cons_of_neg _ hx]
        exact ih hfind

theorem updateByID_idem (db : DB) (id : String) (u : User)
    (hid : u.id = id) :
    updateByID (updateByID db id u) id u = updateByID db id u := by
  simp only [updateByID, List.map_map]
  congr 1
  apply List.map_congr_left
  intro v _
  by_cases hvid : v.id = id <;> simp [Function.comp, hvid, hid]

theorem findUser_after (env : CLIEnv) (flags : Flags) (db : DB) (u : User)
    (f : User → User) (hid : (f u).id = u.id)
    (hacc : (f u).accountID = u.accountID)
    (hfind : findUser env flags db = .ok u) :
    findUser env flags (updateByID db u.id (f u)) = .ok (f u) := by
  unfold findUser at hfind ⊢
  rcases hun : flags.username with _ | un
  · rw [hun] at hfind
    simp at hfind
  · rw [hun] at hfind
    rcases hval : env.validUsername un with _ | _
    · simp [hval] at hfind
    · simp only [hval, Bool.not_true] at hfind ⊢
      simp only [show (false = true) = False from by simp, if_false]
        at hfind ⊢
      have haccs : getLocalAccountByUsername
          (updateByID db u.id (f u)) un
          = getLocalAccountByUsername db un := rfl
      rw [haccs]
      rcases hga : getLocalAccountByUsername db un with _ | a
      · simp [hga] at hfind
      · simp only [hga] at hfind ⊢
        rcases hgu : getUserWhereAccountID db a.id with _ | u0
        · simp [hgu] at hfind
        · simp only [hgu] at hfind
          injection hfind with hfind
          subst hfind
          have hmap : getUserWhereAccountID
              (updateByID db u0.id (f u0)) a.id
              = (db.users.map
                  (fun v => if v.id = u0.id then f u0 else v)).find?
                  (fun v => v.accountID = a.id) := rfl
          rw [hmap, find?_map_update hid (by simp [hacc])
            (by exact hgu)]

theorem mutateUser_idem (env : CLIEnv) (flags : Flags) (db : DB)
    (f : User → User) (hid : ∀ v, (f v).id = v.id)
    (hacc : ∀ v, (f v).accountID = v.accountID)
    (hff : ∀ v, f (f v) = f v)
    (herr : (mutateUser env flags db f).err = none) :
    (mutateUser env flags (mutateUser env flags db f).db f).db
      = (mutateUser env flags db f).db := by
  rcases hfind : findUser env flags db with e | u
  · simp [mutateUser, hfind] at herr
  · have hdb1 : (mutateUser env flags db f).db
        = updateByID db u.id (f u) := by
      rw [show (mutateUser env flags db f).db
        = updateByID db (f u).id (f u) from by simp [mutateUser, hfind],
        hid u]
    have hfind2 : findUser env flags (updateByID db u.id (f u))
        = .ok (f u) :=
      findUser_after env flags db u f (hid u) (hacc u) hfind
    rw [hdb1]
    rw [show (mutateUser env flags (updateByID db u.id (f u)) f).db
      = updateByID (updateByID db u.id (f u)) (f (f u)).id (f (f u))
      from by simp [mutateUser, hfind2]]
    rw [hff u, hid u]
    exact updateByID_idem db u.id (f u) (hid u)

/-- C10: `Promote`, `Demote` and `Disable` are idempotent: whenever such
a mutation succeeds, running the identical mutation again on the
resulting database succeeds and leaves the database — in particular the
target user record — exactly as after the first run, because each sets
its target field to a constant. -/
theorem c10_mutations_idempotent (env : CLIEnv) (flags : Flags)
    (db : DB) :
    ((Promote env flags db).err = none →
      (Promote env flags (Promote env flags db).db).db
        = (Promote env flags db).db) ∧
    ((Demote env flags db).err = none →
      (Demote env flags (Demote env flags db).db).db
        = (Demote env flags db).db) ∧
    ((Disable env flags db).err = none →
      (Disable env flags (Disable env flags db).db).db
        = (Disable env flags db).db) :=
  ⟨fun herr => mutateUser_idem env flags db _
      (fun _ => rfl) (fun _ => rfl) (fun _ => rfl) herr,
    fun herr => mutateUser_idem env flags db _
      (fun _ => rfl) (fun _ => rfl) (fun _ => rfl) herr,
    fun herr => mutateUser_idem env flags db _
      (fun _ => rfl) (fun _ => rfl) (fun _ => rfl) herr⟩

/-- A concrete environment for the CLI actions: permissive validators, a
fixed clock, and a tagging hash. -/
def envEx : CLIEnv :=
  { validUsername := fun _ => true
    validNewPassword := fun _ => true
    now := 42
    hash := fun p => String.append "hashed:" p }

/-- A concrete local account. -/
def accEx : Account := { id := "A1", username := "zork" }

/-- The user record of `accEx`. -/
def userEx : User :=
  { id := "U1"
    accountID := "A1"
    email := ""
    unconfirmedEmail := "zork@example.org"
    approved := false
    confirmedAt := 0
    admin := false
    disabled := false
    encryptedPassword := "old" }

/-- Another, unrelated user record. -/
def user2Ex : User :=
  { id := "U2"
    accountID := "A2"
    email := "other@example.org"
    unconfirmedEmail := ""
    approved := true
    confirmedAt := 7
    admin := true
    disabled := false
    encryptedPassword := "pw2" }

/-- A concrete database holding both records. -/
def dbEx : DB := { accounts := [accEx], users := [userEx, user2Ex] }

/-- Concrete CLI flags naming `accEx` and a new password. -/
def flagsEx : Flags := { username := some "zork", password := some "secret" }

/-- Witness for C7: on the concrete database, `Promote` issues exactly
one write, on the user record found for the username flag, and every
other record survives unchanged. -/
theorem c7_single_record_writes_witness :
    (Promote envEx flagsEx dbEx).db.accounts = dbEx.accounts ∧
    (∃ u : User, findUser envEx flagsEx dbEx = .ok u ∧
      ∃ w : Write, (Promote envEx flagsEx dbEx).writes = [w] ∧
        w.id = u.id ∧
        List.Forall₂
          (fun vo vn =>
            (vo.id = w.id → vn = w.user) ∧ (vo.id ≠ w.id → vn = vo))
          dbEx.users (Promote envEx flagsEx dbEx).db.users) :=
  ⟨(c7_single_record_writes.2.1 envEx flagsEx dbEx).1,
    (c7_single_record_writes.2.1 envEx flagsEx dbEx).2.1 (by decide)⟩

/-- Witness for C10: on the concrete database, a second `Promote` leaves
the database exactly as after the first. -/
theorem c10_mutations_idempotent_witness :
    (Promote envEx flagsEx (Promote envEx flagsEx dbEx).db).db
      = (Promote envEx flagsEx dbEx).db :=
  (c10_mutations_idempotent envEx flagsEx dbEx).1 (by decide)

/-- Witness for C2's amended theorem at the fresh processor. -/
theorem c2_lifecycle_not_idempotent_witness :
    startP newProcessor
      = .ok ({ newProcessor with loops := newProcessor.loops + 1 }, none) ∧
    stopP { newProcessor with stopClosed := false }
      = .ok ({ newProcessor with stopClosed := true }, none) ∧
    stopP { newProcessor with stopClosed := true }
      = .panic "close of closed channel" :=
  c2_lifecycle_not_idempotent newProcessor
